import Mathlib

/-!
Verification of the `sort-keys-fix` ESLint rule
(`src/lib/rules/sort-keys-fix.js` of eslint-plugin-custom-sort-keys).

The development shallowly embeds the rule: the comparator family
(`isValidOrders`), option parsing (`create`), the per-literal frame stack,
the blank-line group detection, the violation reporter and the textual-swap
fixer, together with a model of the inputs the host supplies (a syntax
tree, a token/comment stream and the raw source text).
-/

namespace SortKeysFix

/-! ## String primitives

JavaScript string comparison `a <= b` is code-unit lexicographic order.
All inputs considered here are ASCII, where code units and code points
coincide, so strings are modelled as their character lists. -/

/-- Code-unit lexicographic `<=` on character lists (JS `a <= b`). -/
def jsLeChars : List Char → List Char → Bool
  | [], _ => true
  | _ :: _, [] => false
  | a :: as, b :: bs =>
    a.toNat < b.toNat || (a.toNat = b.toNat && jsLeChars as bs)

/-- JS `a <= b` on strings. -/
def jsLe (a b : String) : Bool :=
  jsLeChars a.data b.data

/-- Modelled from the spec: the case-insensitive comparator forms
"lower-case both operands first" (JS `String.prototype.toLowerCase`,
restricted to ASCII, which covers every input in this development). -/
def toLowerChar (c : Char) : Char :=
  if 65 ≤ c.toNat ∧ c.toNat ≤ 90 then Char.ofNat (c.toNat + 32) else c

/-- Modelled from the spec: ASCII lower-casing of a whole string. -/
def toLowerCase (s : String) : String :=
  String.mk (s.data.map toLowerChar)

/-- Maximal leading digit run of a character list, and the rest. -/
def splitDigits : List Char → List Char × List Char
  | [] => ([], [])
  | c :: cs =>
    if c.isDigit then
      let p := splitDigits cs
      (c :: p.1, p.2)
    else ([], c :: cs)

/-- Numeric value of a digit run. -/
def digitsVal (ds : List Char) : Nat :=
  ds.foldl (fun n c => n * 10 + (c.toNat - 48)) 0

/-- Modelled from the spec: the external `natural-compare` dependency is not
part of this repository; the spec describes it as "string ordering that
treats embedded numeric runs by numeric value rather than
character-by-character". Equal-position digit runs are compared by value,
everything else by code unit. The fuel argument only bounds recursion
depth; one unit is consumed per compared chunk, so
`lengths + 1` units always suffice. -/
def naturalCompareFuel : Nat → List Char → List Char → Int
  | 0, _, _ => 0
  | _ + 1, [], [] => 0
  | _ + 1, [], _ :: _ => -1
  | _ + 1, _ :: _, [] => 1
  | fuel + 1, a :: as, b :: bs =>
    if a.isDigit && b.isDigit then
      let pa := splitDigits (a :: as)
      let pb := splitDigits (b :: bs)
      if digitsVal pa.1 < digitsVal pb.1 then -1
      else if digitsVal pb.1 < digitsVal pa.1 then 1
      else naturalCompareFuel fuel pa.2 pb.2
    else if a.toNat < b.toNat then -1
    else if b.toNat < a.toNat then 1
    else naturalCompareFuel fuel as bs

/-- Modelled from the spec: entry point of the natural comparator. -/
def naturalCompare (a b : String) : Int :=
  naturalCompareFuel (a.length + b.length + 1) a.data b.data

/-! ## Comparator family (`isValidOrders` in the source)

Postfix `I` means insensitive, postfix `N` means natural, exactly as in
the source object literal. -/

namespace isValidOrders

/-- `asc(a, b) = a <= b`. -/
def asc (a b : String) : Bool := jsLe a b

/-- `ascI(a, b) = a.toLowerCase() <= b.toLowerCase()`. -/
def ascI (a b : String) : Bool := jsLe (toLowerCase a) (toLowerCase b)

/-- `ascN(a, b) = naturalCompare(a, b) <= 0`. -/
def ascN (a b : String) : Bool := naturalCompare a b ≤ 0

/-- `ascIN(a, b) = naturalCompare(a.toLowerCase(), b.toLowerCase()) <= 0`. -/
def ascIN (a b : String) : Bool :=
  naturalCompare (toLowerCase a) (toLowerCase b) ≤ 0

/-- `desc(a, b) = asc(b, a)`. -/
def desc (a b : String) : Bool := asc b a

/-- `descI(a, b) = ascI(b, a)`. -/
def descI (a b : String) : Bool := ascI b a

/-- `descN(a, b) = ascN(b, a)`. -/
def descN (a b : String) : Bool := ascN b a

/-- `descIN(a, b) = ascIN(b, a)`. -/
def descIN (a b : String) : Bool := ascIN b a

/-- The string-keyed lookup `isValidOrders[order + I? + N?]` performed in
`create`. An unknown key yields an always-false comparator; the schema
restricts `order` to asc/desc, so in the real rule the key is never
unknown (calling an `undefined` comparator would throw). -/
def select (key : String) : String → String → Bool :=
  if key = "asc" then asc
  else if key = "ascI" then ascI
  else if key = "ascN" then ascN
  else if key = "ascIN" then ascIN
  else if key = "desc" then desc
  else if key = "descI" then descI
  else if key = "descN" then descN
  else if key = "descIN" then descIN
  else fun _ _ => false

end isValidOrders

/-! ## Options and `create` -/

/-- The second rule option (`options` object): every field optional, as in
the JSON schema. -/
structure RuleOptions where
  caseSensitive : Option Bool
  natural : Option Bool
  allowLineSeparatedGroups : Option Bool
deriving DecidableEq, Repr

/-- `context.options`: positional order selector and options object. -/
structure Context where
  orderOption : Option String
  ruleOptions : Option RuleOptions
deriving DecidableEq, Repr

/-- The configuration `create` resolves once per run. -/
structure Config where
  order : String
  insensitive : Bool
  natual : Bool
  allowLineSeparatedGroups : Bool
  isValidOrder : String → String → Bool

/-- Option parsing at the top of `create`:
`order = context.options[0] || "asc"`;
`insensitive = (options && options.caseSensitive) === false`;
`natual = Boolean(options && options.natural)`;
`allowLineSeparatedGroups = Boolean(options && options.allowLineSeparatedGroups)`;
`isValidOrder = isValidOrders[order + (insensitive ? "I" : "") + (natual ? "N" : "")]`. -/
def create (ctx : Context) : Config :=
  let order := ctx.orderOption.getD "asc"
  let insensitive :=
    match ctx.ruleOptions with
    | some o => o.caseSensitive == some false
    | none => false
  let natual :=
    match ctx.ruleOptions with
    | some o => o.natural.getD false
    | none => false
  let allowLineSeparatedGroups :=
    match ctx.ruleOptions with
    | some o => o.allowLineSeparatedGroups.getD false
    | none => false
  { order := order
    insensitive := insensitive
    natual := natual
    allowLineSeparatedGroups := allowLineSeparatedGroups
    isValidOrder :=
      isValidOrders.select
        (order ++ (if insensitive then "I" else "")
          ++ (if natual then "N" else "")) }

/-- The default context: no positional order, no options object. -/
def defaultContext : Context := { orderOption := none, ruleOptions := none }

/-- The default configuration (`"asc"`, case-sensitive, not natural, no
line-separated groups). -/
def defaultConfig : Config := create defaultContext

/-! ## Source model -/

/-- A source span: character offsets (the node's `range`) and line numbers
(the node's `loc`). -/
structure Span where
  startOff : Nat
  endOff : Nat
  startLine : Nat
  endLine : Nat
deriving DecidableEq, Repr

/-- The key of a `Property` node: an `Identifier`, a string/numeric
literal (kept as its static name), or any other expression. -/
inductive KeyNode where
  | identifier (name : String)
  | literalKey (staticName : String)
  | otherKey
deriving DecidableEq, Repr

/-- The fields of a `Property` node the rule reads: its span, its key's
span, its key and the `computed` flag. -/
structure PropertyData where
  span : Span
  keySpan : Span
  key : KeyNode
  computed : Bool
deriving DecidableEq, Repr

/-- A token or comment of the lexical stream. -/
structure Token where
  span : Span
  isComment : Bool
deriving DecidableEq, Repr

/-- Modelled from the spec: the external lexical-source facility — the raw
text plus "a token/comment stream queryable for all tokens and comments
between two positions" (spec §6). -/
structure SourceCode where
  text : List Char
  tokens : List Token
deriving DecidableEq, Repr

/-- `sourceCode.getText(node)`: the text of a span. -/
def getText (sc : SourceCode) (s : Span) : List Char :=
  (sc.text.drop s.startOff).take (s.endOff - s.startOff)

/-- Modelled from the spec: `sourceCode.getTokensBetween(a, b,
{includeComments: true})` — every token and comment lying strictly between
the two spans. -/
def getTokensBetween (sc : SourceCode) (a b : Span) : List Token :=
  sc.tokens.filter fun t =>
    a.endOff ≤ t.span.startOff && t.span.endOff ≤ b.startOff

/-- Modelled from the spec: `sourceCode.getCommentsBefore(node)` — the
comments directly preceding the node, i.e. with no non-comment token
between the comment and the node. -/
def getCommentsBefore (sc : SourceCode) (n : Span) : List Token :=
  sc.tokens.filter fun t =>
    t.isComment && t.span.endOff ≤ n.startOff &&
      sc.tokens.all fun u =>
        u.isComment || u.span.endOff ≤ t.span.startOff || n.startOff ≤ u.span.startOff

/-! ## Name extraction -/

/-- Modelled from the spec: `astUtils.getStaticPropertyName` lives in the
repository's `lib/util/ast-utils` module, which is not included under
`src/`; per the spec (§4.1) a key has a static name when it is a plain
(non-computed) identifier or a string/numeric literal (a literal also when
written in computed-key syntax). -/
def getStaticPropertyName (d : PropertyData) : Option String :=
  match d.key with
  | .identifier n => if d.computed then none else some n
  | .literalKey v => some v
  | .otherKey => none

/-- `node.key.name || null`: only `Identifier` keys carry a `name`, and an
empty name is falsy. -/
def keyName : KeyNode → Option String
  | .identifier n => if n = "" then none else some n
  | _ => none

/-- `getPropertyName` from the source: the static name when there is one,
else `node.key.name || null`. -/
def getPropertyName (d : PropertyData) : Option String :=
  match getStaticPropertyName d with
  | some s => some s
  | none => keyName d.key

/-! ## Fixes, messages and violations -/

/-- One textual edit (a `fixer` operation): replace the text of the
half-open offset range `[rangeStart, rangeEnd)` by `text`.
`insertTextBefore` has `rangeStart = rangeEnd`; `remove` has empty
`text`. -/
structure Fix where
  rangeStart : Nat
  rangeEnd : Nat
  text : List Char
deriving DecidableEq, Repr

/-- `moveProperty(fromNode, toNode)` inside the `fix` callback: capture
`fromNode`'s text; for each comment preceding `fromNode`, insert its text
plus a newline before `toNode` and remove it; then replace `toNode`'s
text with the captured text. -/
def moveProperty (sc : SourceCode) (fromSpan toSpan : Span) : List Fix :=
  let prevText := getText sc fromSpan
  let thisComments := getCommentsBefore sc fromSpan
  (thisComments.flatMap fun c =>
    [ { rangeStart := toSpan.startOff, rangeEnd := toSpan.startOff,
        text := getText sc c.span ++ [Char.ofNat 10] },
      { rangeStart := c.span.startOff, rangeEnd := c.span.endOff, text := [] } ])
  ++ [{ rangeStart := toSpan.startOff, rangeEnd := toSpan.endOff, text := prevText }]

/-- The interpolated report message
`"Expected object keys to be in {{natual}}{{insensitive}}{{order}}ending order. '{{thisName}}' should be before '{{prevName}}'."`
(the `\x27` escapes are the single quotes around the two names). -/
def formatMessage (order : String) (insensitive natual : Bool)
    (thisName prevName : String) : String :=
  "Expected object keys to be in "
    ++ (if natual then "natural " else "")
    ++ (if insensitive then "insensitive " else "")
    ++ order ++ "ending order. \x27" ++ thisName
    ++ "\x27 should be before \x27" ++ prevName ++ "\x27."

/-- One reported violation: anchored at the current entry's key span
(`loc: node.key.loc`), with the interpolated message, the two names and
the fixer's edits. -/
structure Violation where
  keyLoc : Span
  message : String
  prevName : String
  thisName : String
  fixes : List Fix
deriving DecidableEq, Repr

/-- The `context.report(...)` payload: the key anchor, the message data,
and the `fix` callback, which runs `moveProperty(node, prevNode)` and then
`moveProperty(prevNode, node)`. `prevNode` is never `null` when a
violation is reported (`prevName` is only ever set together with
`prevNode`), so the `none` branch is unreachable. -/
def mkViolation (cfg : Config) (sc : SourceCode) (node : PropertyData)
    (prevNode : Option PropertyData) (pn tn : String) : Violation :=
  { keyLoc := node.keySpan
    message := formatMessage cfg.order cfg.insensitive cfg.natual tn pn
    prevName := pn
    thisName := tn
    fixes :=
      match prevNode with
      | some p => moveProperty sc node.span p.span ++ moveProperty sc p.span node.span
      | none => [] }

/-! ## Applying edits (external patch applier) -/

/-- Splice one fix into the text. -/
def applyFix (text : List Char) (f : Fix) : List Char :=
  text.take f.rangeStart ++ f.text ++ text.drop f.rangeEnd

/-- Insert a fix into a list sorted by decreasing start offset. -/
def insertFixDesc (f : Fix) : List Fix → List Fix
  | [] => [f]
  | g :: gs =>
    if g.rangeStart ≤ f.rangeStart then f :: g :: gs else g :: insertFixDesc f gs

/-- Sort fixes by decreasing start offset. -/
def sortFixesDesc (fs : List Fix) : List Fix :=
  fs.foldr insertFixDesc []

/-- Modelled from the spec: the external patch applier — "applying every
proposed Edit in sequence" (spec §8). Fixes are applied from the end of
the text towards the front, so the offsets of the remaining fixes stay
valid. -/
def applyFixes (text : List Char) (fs : List Fix) : List Char :=
  (sortFixesDesc fs).foldl applyFix text

/-! ## Frame stack and handlers -/

/-- The per-literal frame chain (the `stack` variable): `nil` models the
initial `null`; a frame carries `upper`, `prevName`, `prevNode` and
`prevBlankLine`. The field `prevBlankLine` is absent (i.e. `undefined`,
falsy) on a freshly pushed frame and is modelled as `false`, the only way
it is ever read. -/
inductive Stack where
  | nil
  | frame (upper : Stack) (prevName : Option String)
      (prevNode : Option PropertyData) (prevBlankLine : Bool)
deriving DecidableEq, Repr

/-- Traversal state: the stack, the reported violations, and the trace of
stack values after each handler invocation (used to state the blank-line
flag invariant). -/
structure St where
  stack : Stack
  violations : List Violation
  trace : List Stack
deriving DecidableEq, Repr

/-- The `ObjectExpression` handler: push a fresh frame. -/
def pushFrame (st : St) : St :=
  let s := Stack.frame st.stack none none false
  { st with stack := s, trace := st.trace ++ [s] }

/-- The `ObjectExpression:exit` handler: `stack = stack.upper`. (`nil` is
unreachable: every exit matches an enter.) -/
def popFrame (st : St) : St :=
  match st.stack with
  | .frame upper _ _ _ => { st with stack := upper, trace := st.trace ++ [upper] }
  | .nil => st

/-- The `SpreadElement` handler (also bound to
`ExperimentalSpreadProperty`): when the parent is an object literal,
`stack.prevName = null`, and nothing else. (`nil` is unreachable when the
parent is an `ObjectExpression`, which has already pushed a frame.) -/
def spreadStep (parentType : String) (st : St) : St :=
  if parentType = "ObjectExpression" then
    match st.stack with
    | .frame upper _ prevNode prevBlank =>
      let s := Stack.frame upper none prevNode prevBlank
      { st with stack := s, trace := st.trace ++ [s] }
    | .nil => st
  else st

/-- The `tokens.forEach` loop: does some adjacent token pair lie more than
one line break apart? -/
def anyAdjacentGap : List Token → Bool
  | t1 :: t2 :: rest =>
    (decide ((t2.span.startLine : Int) - t1.span.endLine > 1))
      || anyAdjacentGap (t2 :: rest)
  | _ => false

/-- `node.loc.start.line - tokens[tokens.length - 1].loc.end.line > 1`.
The source indexes unconditionally; the token list is non-empty whenever
`prevNode` is set, since a comma always separates two members. -/
def lastTokenGap (ts : List Token) (cur : Span) : Bool :=
  match ts.getLast? with
  | some t => decide ((cur.startLine : Int) - t.span.endLine > 1)
  | none => false

/-- `tokens[0].loc.start.line - stack.prevNode.loc.end.line > 1`. -/
def firstTokenGap (ts : List Token) (prev : Span) : Bool :=
  match ts.head? with
  | some t => decide ((t.span.startLine : Int) - prev.endLine > 1)
  | none => false

/-- The three blank-line checks of the `Property` handler, starting from
the carried `stack.prevBlankLine` value: the adjacent-pair loop, then the
last-token-to-node gap, then the previous-node-to-first-token gap (the
latter two only looked at while the flag is still unset). -/
def blankAfterTokens (prevBlank : Bool) (prev cur : Span) (ts : List Token) : Bool :=
  let b1 := prevBlank || anyAdjacentGap ts
  let b2 := if !b1 && lastTokenGap ts cur then true else b1
  if !b2 && firstTokenGap ts prev then true else b2

/-- `isBlankLineBetweenNodes`: the carried flag when there is no previous
node (`tokens` is `null`), else the token-gap checks. -/
def computeIsBlank (sc : SourceCode) (prevNode : Option PropertyData)
    (prevBlank : Bool) (cur : Span) : Bool :=
  match prevNode with
  | none => prevBlank
  | some p => blankAfterTokens prevBlank p.span cur (getTokensBetween sc p.span cur)

/-- The `Property` handler (lines 149–249 of the source): skip pattern
properties; read the frame; compute `thisName` and the blank-line flag;
set `prevNode` to the node and, when named, `prevName` to the name; return
early when either name is missing; skip the comparison (setting
`prevBlankLine = (thisName === null)`) when line-separated groups are
allowed and a blank line was found; otherwise report when the active
comparator rejects the pair. A `nil` stack is unreachable here: a
`Property` with an `ObjectExpression` parent is only visited after its
parent pushed a frame. -/
def propertyStep (cfg : Config) (sc : SourceCode) (parentType : String)
    (node : PropertyData) (st : St) : St :=
  if parentType = "ObjectPattern" then st
  else
    match st.stack with
    | .nil => st
    | .frame upper prevName prevNode prevBlank =>
      let thisName := getPropertyName node
      let isBlankLineBetweenNodes := computeIsBlank sc prevNode prevBlank node.span
      let newStack :=
        Stack.frame upper (if thisName.isSome then thisName else prevName)
          (some node) prevBlank
      match prevName, thisName with
      | some pn, some tn =>
        if cfg.allowLineSeparatedGroups && isBlankLineBetweenNodes then
          let s := Stack.frame upper (some tn) (some node) (getPropertyName node == none)
          { st with stack := s, trace := st.trace ++ [s] }
        else if !(cfg.isValidOrder pn tn) then
          { st with
              stack := newStack
              violations := st.violations ++ [mkViolation cfg sc node prevNode pn tn]
              trace := st.trace ++ [newStack] }
        else { st with stack := newStack, trace := st.trace ++ [newStack] }
      | _, _ => { st with stack := newStack, trace := st.trace ++ [newStack] }

/-! ## Traversal -/

mutual
/-- Syntax tree restricted to what the rule inspects: object literals,
object (destructuring) patterns, and everything else. -/
inductive JsNode where
  | objectExpression (span : Span) (members : JsMembers)
  | objectPattern (span : Span) (members : JsMembers)
  | otherNode (span : Span)

/-- The member list of a literal or pattern. -/
inductive JsMembers where
  | nil
  | cons (m : JsMember) (rest : JsMembers)

/-- One member: a property (with its value sub-tree) or a spread/rest
element (with its argument sub-tree). -/
inductive JsMember where
  | property (data : PropertyData) (value : JsNode)
  | spreadElement (span : Span) (arg : JsNode)
end

mutual
/-- Depth-first traversal of a node: entering an object literal pushes a
frame, its members are visited with parent type `"ObjectExpression"`, and
the exit pops; an object pattern pushes nothing and its members see parent
type `"ObjectPattern"`; other nodes trigger no handler. -/
def visitNode (cfg : Config) (sc : SourceCode) : JsNode → St → St
  | .objectExpression _ members, st =>
    popFrame (visitMembers cfg sc "ObjectExpression" members (pushFrame st))
  | .objectPattern _ members, st =>
    visitMembers cfg sc "ObjectPattern" members st
  | .otherNode _, st => st

/-- Visit the members in order. -/
def visitMembers (cfg : Config) (sc : SourceCode) (parentType : String) :
    JsMembers → St → St
  | .nil, st => st
  | .cons m rest, st =>
    visitMembers cfg sc parentType rest (visitMember cfg sc parentType m st)

/-- Visit one member: run its handler, then its sub-tree. -/
def visitMember (cfg : Config) (sc : SourceCode) (parentType : String) :
    JsMember → St → St
  | .property d value, st =>
    visitNode cfg sc value (propertyStep cfg sc parentType d st)
  | .spreadElement _ arg, st =>
    visitNode cfg sc arg (spreadStep parentType st)
end

/-- The initial traversal state (`stack = null`, nothing reported). -/
def initialSt : St := { stack := Stack.nil, violations := [], trace := [] }

/-- Run the rule: resolve the configuration with `create`, traverse the
tree. -/
def runRule (ctx : Context) (sc : SourceCode) (prog : JsNode) : St :=
  visitNode (create ctx) sc prog initialSt

/-- The names of a member list in order (`none` for spreads and
unresolvable keys). -/
def memberNames : JsMembers → List (Option String)
  | .nil => []
  | .cons (.property d _) rest => getPropertyName d :: memberNames rest
  | .cons (.spreadElement _ _) rest => none :: memberNames rest

/-- The member names of an object literal or pattern node. -/
def nodeMemberNames : JsNode → List (Option String)
  | .objectExpression _ ms => memberNames ms
  | .objectPattern _ ms => memberNames ms
  | .otherNode _ => []

/-- Every frame of the chain has a false carried blank-line flag. -/
def stackNoBlank : Stack → Bool
  | .nil => true
  | .frame up _ _ pb => !pb && stackNoBlank up

/-- Invariant for the blank-line-flag claim: the current stack and every
stack recorded in the trace carry no true blank-line flag. -/
def StInv (st : St) : Prop :=
  stackNoBlank st.stack = true ∧ ∀ s ∈ st.trace, stackNoBlank s = true

/-- Every reported violation names a pair whose swap is ordered: the
current name is lexicographically not after the previous name. -/
def violationsOrdered (st : St) : Bool :=
  st.violations.all fun v => jsLe v.thisName v.prevName

/-- A qualifying blank line between two entries, phrased as the spec
describes it: some adjacent pair of the tokens/comments between the
two entries spans more than one line break, or the current entry starts
more than one line break after the last such token, or the first such
token starts more than one line break after the previous entry ends. -/
def QualifyingBlank (prev cur : Span) (ts : List Token) : Prop :=
  (∃ p ∈ ts.zip ts.tail, ((p.2.span.startLine : Int) - p.1.span.endLine > 1)) ∨
  (∃ tl ∈ ts.getLast?.toList, ((cur.startLine : Int) - tl.span.endLine > 1)) ∨
  (∃ hd ∈ ts.head?.toList, ((hd.span.startLine : Int) - prev.endLine > 1))

instance (prev cur : Span) (ts : List Token) : Decidable (QualifyingBlank prev cur ts) := by
  unfold QualifyingBlank
  infer_instance

/-! ## Concrete inputs

Offsets and line numbers below transcribe the exact sources named in the
spec's testable properties. -/

/-- A span on line 1 of a single-line source. -/
def lineSpan (a b : Nat) : Span :=
  { startOff := a, endOff := b, startLine := 1, endLine := 1 }

/-- A span with explicit line numbers. -/
def mkSpan (a b l1 l2 : Nat) : Span :=
  { startOff := a, endOff := b, startLine := l1, endLine := l2 }

/-- A non-comment token on line 1. -/
def tok (a b : Nat) : Token := { span := lineSpan a b, isComment := false }

/-- A non-comment token on line `l`. -/
def tokL (a b l : Nat) : Token := { span := mkSpan a b l l, isComment := false }

/-- A shorthand, non-computed identifier property. -/
def identProp (a b k1 k2 : Nat) (name : String) : PropertyData :=
  { span := lineSpan a b, keySpan := lineSpan k1 k2
    key := .identifier name, computed := false }

/-- The source `{b: 1, a: 2}` of the end-to-end property. -/
def src1 : List Char := ("\x7bb: 1, a: 2\x7d").data

/-- Its lexical stream. -/
def sc1 : SourceCode :=
  { text := src1
    tokens := [tok 0 1, tok 1 2, tok 2 3, tok 4 5, tok 5 6, tok 7 8,
      tok 8 9, tok 10 11, tok 11 12] }

/-- Its syntax tree. -/
def prog1 : JsNode :=
  .objectExpression (lineSpan 0 12)
    (.cons (.property (identProp 1 5 1 2 "b") (.otherNode (lineSpan 4 5)))
      (.cons (.property (identProp 7 11 7 8 "a") (.otherNode (lineSpan 10 11))) .nil))

/-- Order `"asc"` passed explicitly, no options object. -/
def ctxAsc : Context := { orderOption := some "asc", ruleOptions := none }

/-- Options enabling `allowLineSeparatedGroups` only. -/
def ctxGroups : Context :=
  { orderOption := none
    ruleOptions := some
      { caseSensitive := none, natural := none, allowLineSeparatedGroups := some true } }

/-- The configuration with line-separated groups allowed. -/
def groupsConfig : Config := create ctxGroups

/-- The source `{ b: 1, a: 2 }` (no blank line). -/
def srcG1 : List Char := ("\x7b b: 1, a: 2 \x7d").data

/-- Its lexical stream. -/
def scG1 : SourceCode :=
  { text := srcG1
    tokens := [tok 0 1, tok 2 3, tok 3 4, tok 5 6, tok 6 7, tok 8 9,
      tok 9 10, tok 11 12, tok 13 14] }

/-- Its syntax tree. -/
def progG1 : JsNode :=
  .objectExpression (lineSpan 0 14)
    (.cons (.property (identProp 2 6 2 3 "b") (.otherNode (lineSpan 5 6)))
      (.cons (.property (identProp 8 12 8 9 "a") (.otherNode (lineSpan 11 12))) .nil))

/-- The source `{ b: 1,\n\n a: 2 }` (one blank line between the
entries; the `b` entry is on line 1, the `a` entry on line 3). -/
def srcG2 : List Char := ("\x7b b: 1,\n\n a: 2 \x7d").data

/-- Its lexical stream. -/
def scG2 : SourceCode :=
  { text := srcG2
    tokens := [tokL 0 1 1, tokL 2 3 1, tokL 3 4 1, tokL 5 6 1, tokL 6 7 1,
      tokL 10 11 3, tokL 11 12 3, tokL 13 14 3, tokL 15 16 3] }

/-- Its syntax tree. -/
def progG2 : JsNode :=
  .objectExpression (mkSpan 0 16 1 3)
    (.cons
      (.property
        { span := mkSpan 2 6 1 1, keySpan := mkSpan 2 3 1 1
          key := .identifier "b", computed := false }
        (.otherNode (mkSpan 5 6 1 1)))
      (.cons
        (.property
          { span := mkSpan 10 14 3 3, keySpan := mkSpan 10 11 3 3
            key := .identifier "a", computed := false }
          (.otherNode (mkSpan 13 14 3 3))) .nil))

/-- The source `{c: 1, a: 2, b: 3}` (one violation, between `c` and
`a`). -/
def src3 : List Char := ("\x7bc: 1, a: 2, b: 3\x7d").data

/-- Its lexical stream. -/
def sc3 : SourceCode :=
  { text := src3
    tokens := [tok 0 1, tok 1 2, tok 2 3, tok 4 5, tok 5 6, tok 7 8,
      tok 8 9, tok 10 11, tok 11 12, tok 13 14, tok 14 15, tok 16 17, tok 17 18] }

/-- Its syntax tree. -/
def prog3 : JsNode :=
  .objectExpression (lineSpan 0 18)
    (.cons (.property (identProp 1 5 1 2 "c") (.otherNode (lineSpan 4 5)))
      (.cons (.property (identProp 7 11 7 8 "a") (.otherNode (lineSpan 10 11)))
        (.cons (.property (identProp 13 17 13 14 "b") (.otherNode (lineSpan 16 17))) .nil)))

/-- The text produced by applying the one proposed edit to `src3`. -/
def src3b : List Char := ("\x7ba: 2, c: 1, b: 3\x7d").data

/-- Its lexical stream. -/
def sc3b : SourceCode :=
  { text := src3b
    tokens := [tok 0 1, tok 1 2, tok 2 3, tok 4 5, tok 5 6, tok 7 8,
      tok 8 9, tok 10 11, tok 11 12, tok 13 14, tok 14 15, tok 16 17, tok 17 18] }

/-- Its syntax tree: the literal of the corrected text, entries named
`a`, `c`, `b` in that order. -/
def prog3b : JsNode :=
  .objectExpression (lineSpan 0 18)
    (.cons (.property (identProp 1 5 1 2 "a") (.otherNode (lineSpan 4 5)))
      (.cons (.property (identProp 7 11 7 8 "c") (.otherNode (lineSpan 10 11)))
        (.cons (.property (identProp 13 17 13 14 "b") (.otherNode (lineSpan 16 17))) .nil)))

/-- The source `{...x, b: 1, a: 2}`: the spread precedes both named
entries. -/
def src4 : List Char := ("\x7b...x, b: 1, a: 2\x7d").data

/-- Its lexical stream. -/
def sc4 : SourceCode :=
  { text := src4
    tokens := [tok 0 1, tok 1 4, tok 4 5, tok 5 6, tok 7 8, tok 8 9,
      tok 10 11, tok 11 12, tok 13 14, tok 14 15, tok 16 17, tok 17 18] }

/-- Its syntax tree. -/
def prog4 : JsNode :=
  .objectExpression (lineSpan 0 18)
    (.cons (.spreadElement (lineSpan 1 5) (.otherNode (lineSpan 4 5)))
      (.cons (.property (identProp 7 11 7 8 "b") (.otherNode (lineSpan 10 11)))
        (.cons (.property (identProp 13 17 13 14 "a") (.otherNode (lineSpan 16 17))) .nil)))

/-- The source `{b: 1, ...x, a: 2}`: the spread lies between the two
named entries. -/
def src4b : List Char := ("\x7bb: 1, ...x, a: 2\x7d").data

/-- Its lexical stream. -/
def sc4b : SourceCode :=
  { text := src4b
    tokens := [tok 0 1, tok 1 2, tok 2 3, tok 4 5, tok 5 6, tok 7 10,
      tok 10 11, tok 11 12, tok 13 14, tok 14 15, tok 16 17, tok 17 18] }

/-- Its syntax tree. -/
def prog4b : JsNode :=
  .objectExpression (lineSpan 0 18)
    (.cons (.property (identProp 1 5 1 2 "b") (.otherNode (lineSpan 4 5)))
      (.cons (.spreadElement (lineSpan 7 11) (.otherNode (lineSpan 10 11)))
        (.cons (.property (identProp 13 17 13 14 "a") (.otherNode (lineSpan 16 17))) .nil)))

/-- The source `const {b, a} = obj;` (a destructuring pattern). -/
def src5 : List Char := ("const \x7bb, a\x7d = obj;").data

/-- Its lexical stream. -/
def sc5 : SourceCode :=
  { text := src5
    tokens := [tok 0 5, tok 6 7, tok 7 8, tok 8 9, tok 10 11, tok 11 12,
      tok 13 14, tok 15 18, tok 18 19] }

/-- Its syntax tree: an `ObjectPattern` holding the shorthand properties
`b` and `a`. -/
def prog5 : JsNode :=
  .objectPattern (lineSpan 6 12)
    (.cons (.property (identProp 7 8 7 8 "b") (.otherNode (lineSpan 7 8)))
      (.cons (.property (identProp 10 11 10 11 "a") (.otherNode (lineSpan 10 11))) .nil))

/-! ## Resolved configurations -/

theorem defaultConfig_isValidOrder : defaultConfig.isValidOrder = isValidOrders.asc := rfl

theorem defaultConfig_allowLSG : defaultConfig.allowLineSeparatedGroups = false := rfl

theorem groupsConfig_isValidOrder : groupsConfig.isValidOrder = isValidOrders.asc := rfl

theorem groupsConfig_allowLSG : groupsConfig.allowLineSeparatedGroups = true := rfl

/-! ## Totality of the lexicographic comparator -/

theorem jsLeChars_total (as bs : List Char) :
    jsLeChars as bs = true ∨ jsLeChars bs as = true := by
  induction as generalizing bs with
  | nil => left; rfl
  | cons a as ih =>
    cases bs with
    | nil => right; rfl
    | cons b bs =>
      rcases Nat.lt_trichotomy a.toNat b.toNat with h | h | h
      · left; simp [jsLeChars, h]
      · rcases ih bs with h2 | h2
        · left; simp [jsLeChars, h, h2]
        · right; simp [jsLeChars, h.symm, h2]
      · right; simp [jsLeChars, h]

theorem jsLe_flip (a b : String) (h : jsLe a b = false) : jsLe b a = true := by
  rcases jsLeChars_total a.data b.data with h2 | h2
  · exact absurd h2 (by simpa [jsLe] using h)
  · exact h2

/-! ## Preservation of state predicates along the traversal -/

mutual
theorem visitNode_preserves (cfg : Config) (sc : SourceCode) (P : St → Prop)
    (hprop : ∀ pt d st, P st → P (propertyStep cfg sc pt d st))
    (hspread : ∀ pt st, P st → P (spreadStep pt st))
    (hpush : ∀ st, P st → P (pushFrame st))
    (hpop : ∀ st, P st → P (popFrame st)) :
    ∀ (n : JsNode) (st : St), P st → P (visitNode cfg sc n st)
  | .objectExpression _ members, st, h =>
    hpop _
      (visitMembers_preserves cfg sc P hprop hspread hpush hpop
        "ObjectExpression" members _ (hpush st h))
  | .objectPattern _ members, st, h =>
    visitMembers_preserves cfg sc P hprop hspread hpush hpop
      "ObjectPattern" members st h
  | .otherNode _, _, h => h

theorem visitMembers_preserves (cfg : Config) (sc : SourceCode) (P : St → Prop)
    (hprop : ∀ pt d st, P st → P (propertyStep cfg sc pt d st))
    (hspread : ∀ pt st, P st → P (spreadStep pt st))
    (hpush : ∀ st, P st → P (pushFrame st))
    (hpop : ∀ st, P st → P (popFrame st)) :
    ∀ (pt : String) (ms : JsMembers) (st : St), P st → P (visitMembers cfg sc pt ms st)
  | _, .nil, _, h => h

  | pt, .cons m rest, st, h =>
    visitMembers_preserves cfg sc P hprop hspread hpush hpop pt rest _
      (visitMember_preserves cfg sc P hprop hspread hpush hpop pt m st h)

theorem visitMember_preserves (cfg : Config) (sc : SourceCode) (P : St → Prop)
    (hprop : ∀ pt d st, P st → P (propertyStep cfg sc pt d st))
    (hspread : ∀ pt st, P st → P (spreadStep pt st))
    (hpush : ∀ st, P st → P (pushFrame st))
    (hpop : ∀ st, P st → P (popFrame st)) :
    ∀ (pt : String) (m : JsMember) (st : St), P st → P (visitMember cfg sc pt m st)
  | pt, .property d value, st, h =>
    visitNode_preserves cfg sc P hprop hspread hpush hpop value _ (hprop pt d st h)
  | pt, .spreadElement _ arg, st, h =>
    visitNode_preserves cfg sc P hprop hspread hpush hpop arg _ (hspread pt st h)
end

/-! ## The blank-line flag invariant -/

theorem StInv_push_trace (viols : List Violation) (tr : List Stack) (s : Stack)
    (hs : stackNoBlank s = true) (htr : ∀ x ∈ tr, stackNoBlank x = true) :
    StInv ⟨s, viols, tr ++ [s]⟩ := by
  refine ⟨hs, fun x hx => ?_⟩
  rcases List.mem_append.mp hx with hx | hx
  · exact htr x hx
  · rw [List.mem_singleton.mp hx]; exact hs

theorem pushFrame_StInv (st : St) (h : StInv st) : StInv (pushFrame st) := by
  obtain ⟨h1, h2⟩ := h
  exact StInv_push_trace _ _ _ (by simpa [stackNoBlank] using h1) h2

theorem popFrame_StInv (st : St) (h : StInv st) : StInv (popFrame st) := by
  obtain ⟨h1, h2⟩ := h
  unfold popFrame
  split
  next upper pn pnode pb heq =>
    rw [heq] at h1
    simp only [stackNoBlank, Bool.and_eq_true, Bool.not_eq_eq_eq_not, Bool.not_true] at h1
    exact StInv_push_trace _ _ _ h1.2 h2
  next => exact ⟨h1, h2⟩

theorem spreadStep_StInv (pt : String) (st : St) (h : StInv st) : StInv (spreadStep pt st) := by
  obtain ⟨h1, h2⟩ := h
  unfold spreadStep
  split
  · split
    next upper pn pnode pb heq =>
      rw [heq] at h1
      simp only [stackNoBlank, Bool.and_eq_true] at h1
      exact StInv_push_trace _ _ _ (by simp [stackNoBlank, h1.1, h1.2]) h2
    next => exact ⟨h1, h2⟩
  · exact ⟨h1, h2⟩

theorem propertyStep_StInv (cfg : Config) (sc : SourceCode) (pt : String)
    (d : PropertyData) (st : St) (h : StInv st) : StInv (propertyStep cfg sc pt d st) := by
  obtain ⟨h1, h2⟩ := h
  unfold propertyStep
  split
  · exact ⟨h1, h2⟩
  split
  next => exact ⟨h1, h2⟩
  next upper prevName prevNode prevBlank heq =>
    rw [heq] at h1
    simp only [stackNoBlank, Bool.and_eq_true, Bool.not_eq_eq_eq_not, Bool.not_true] at h1
    obtain ⟨hpb, hup⟩ := h1
    subst hpb
    dsimp only
    split
    next pn tn hpn hthis =>
      split
      · exact StInv_push_trace _ _ _ (by simp [stackNoBlank, hthis, hup]) h2
      · split
        · exact StInv_push_trace _ _ _ (by simp [stackNoBlank, hup]) h2
        · exact StInv_push_trace _ _ _ (by simp [stackNoBlank, hup]) h2
    next => exact StInv_push_trace _ _ _ (by simp [stackNoBlank, hup]) h2

/-! ## Violations are only appended, and only for rejected pairs -/

theorem pushFrame_violations (st : St) : (pushFrame st).violations = st.violations := rfl

theorem popFrame_violations (st : St) : (popFrame st).violations = st.violations := by
  unfold popFrame
  split <;> rfl

theorem spreadStep_violations (pt : String) (st : St) :
    (spreadStep pt st).violations = st.violations := by
  unfold spreadStep
  split
  · split <;> rfl
  · rfl

theorem propertyStep_VOrd (cfg : Config)
    (hc : ∀ a b, cfg.isValidOrder a b = false → jsLe b a = true)
    (sc : SourceCode) (pt : String) (d : PropertyData) (st : St)
    (h : violationsOrdered st = true) :
    violationsOrdered (propertyStep cfg sc pt d st) = true := by
  unfold propertyStep
  split
  · exact h
  split
  · exact h
  next upper prevName prevNode prevBlank heq =>
    dsimp only
    split
    · split
      · exact h
      · split
        next hord =>
          unfold violationsOrdered at h ⊢
          simp [List.all_append, h, mkViolation]
          exact hc _ _ (by simpa using hord)
        · exact h
    · exact h

/-! ## Characterizing the blank-line computation -/

theorem anyAdjacentGap_iff (ts : List Token) :
    anyAdjacentGap ts = true ↔
      ∃ p ∈ ts.zip ts.tail, ((p.2.span.startLine : Int) - p.1.span.endLine > 1) := by
  induction ts with
  | nil => simp [anyAdjacentGap]
  | cons t1 rest ih =>
    cases rest with
    | nil => simp [anyAdjacentGap]
    | cons t2 rest2 => simp [anyAdjacentGap, ih]

theorem lastTokenGap_iff (ts : List Token) (cur : Span) :
    lastTokenGap ts cur = true ↔
      ∃ tl ∈ ts.getLast?.toList, ((cur.startLine : Int) - tl.span.endLine > 1) := by
  unfold lastTokenGap
  cases h : ts.getLast? <;> simp

theorem firstTokenGap_iff (ts : List Token) (prev : Span) :
    firstTokenGap ts prev = true ↔
      ∃ hd ∈ ts.head?.toList, ((hd.span.startLine : Int) - prev.endLine > 1) := by
  unfold firstTokenGap
  cases h : ts.head? <;> simp

theorem blankAfterTokens_false_iff (prev cur : Span) (ts : List Token) :
    blankAfterTokens false prev cur ts = true ↔ QualifyingBlank prev cur ts := by
  unfold blankAfterTokens QualifyingBlank
  rw [← anyAdjacentGap_iff, ← lastTokenGap_iff, ← firstTokenGap_iff]
  cases h1 : anyAdjacentGap ts <;> cases h2 : lastTokenGap ts cur <;>
    cases h3 : firstTokenGap ts prev <;> simp [h1, h2, h3]

/-! ## The claims -/

/-- Claim C10: the carried blank-line flag on a scope frame is never
true. Along any traversal, under any configuration and source, every
stack recorded after each handler invocation — and the final stack —
carries `prevBlankLine = false` in every frame: the only statement
assigning the flag stores `thisName === null`, and it is reachable only
when `thisName` is non-null. -/
theorem C10_prevBlankLine_never_true :
    ∀ (ctx : Context) (sc : SourceCode) (prog : JsNode),
      stackNoBlank (runRule ctx sc prog).stack = true ∧
      (runRule ctx sc prog).trace.all stackNoBlank = true := by
  intro ctx sc prog
  have h : StInv (runRule ctx sc prog) :=
    visitNode_preserves (create ctx) sc StInv
      (propertyStep_StInv (create ctx) sc) spreadStep_StInv pushFrame_StInv
      popFrame_StInv prog initialSt
      ⟨rfl, by intro s hs; simp [initialSt] at hs⟩
  exact ⟨h.1, List.all_eq_true.mpr h.2⟩

/-- Claim C1: on the source `{b: 1, a: 2}` with order `"asc"` and default
options, the rule emits exactly one Violation, anchored at the key `a`'s
span (offsets 7–8), whose message is the documented template with no
natural/insensitive fragments and visibly contains
`'a' should be before 'b'`, and whose Edit applied to the source yields
`{a: 2, b: 1}`. -/
theorem C1_end_to_end :
    (runRule ctxAsc sc1 prog1).violations =
      [⟨lineSpan 7 8,
        "Expected object keys to be in ascending order. "
          ++ "\x27a\x27 should be before \x27b\x27.",
        "b", "a",
        [⟨1, 5, ("a: 2").data⟩, ⟨7, 11, ("b: 1").data⟩]⟩] ∧
    applyFixes src1 [⟨1, 5, ("a: 2").data⟩, ⟨7, 11, ("b: 1").data⟩]
      = ("\x7ba: 2, b: 1\x7d").data := by
  decide

/-- Claim C6: the natural ascending comparator accepts `item2` before
`item10` and rejects the reverse order, while the lexicographic ascending
comparator accepts `item10` before `item2` and rejects the reverse. -/
theorem C6_natural_vs_lexicographic :
    isValidOrders.ascN "item2" "item10" = true ∧
    isValidOrders.ascN "item10" "item2" = false ∧
    isValidOrders.asc "item10" "item2" = true ∧
    isValidOrders.asc "item2" "item10" = false := by
  decide

/-- Claim C7: the case-insensitive ascending comparator lower-cases both
operands before comparing and accepts `("a", "B")`; the default
comparator is the case-sensitive ascending one, which accepts
`("B", "a")` and rejects `("a", "B")`. -/
theorem C7_case_sensitivity :
    (∀ a b, isValidOrders.ascI a b = jsLe (toLowerCase a) (toLowerCase b)) ∧
    isValidOrders.ascI "a" "B" = true ∧
    defaultConfig.isValidOrder = isValidOrders.asc ∧
    isValidOrders.asc "B" "a" = true ∧
    isValidOrders.asc "a" "B" = false :=
  ⟨fun _ _ => rfl, rfl, rfl, rfl, rfl⟩

/-- Claim C8: every descending comparator applied to `(a, b)` returns
exactly the value of the corresponding ascending comparator applied to
`(b, a)`, across all four modifier combinations. -/
theorem C8_desc_is_flipped_asc :
    ∀ a b : String,
      isValidOrders.desc a b = isValidOrders.asc b a ∧
      isValidOrders.descI a b = isValidOrders.ascI b a ∧
      isValidOrders.descN a b = isValidOrders.ascN b a ∧
      isValidOrders.descIN a b = isValidOrders.ascIN b a :=
  fun _ _ => ⟨rfl, rfl, rfl, rfl⟩

/-- Claim C3 (amended): one pass under the default configuration does not
in general leave every consecutive named pair sorted after its edits (see
the counterexample); what holds is the local correctness of each swap:
every reported violation carries names with
`nameOf(curr) <= nameOf(prev)` lexicographically, so the edit that
exchanges the two entries puts that pair in order. -/
theorem C3_local_swap_correctness :
    ∀ (sc : SourceCode) (prog : JsNode),
      violationsOrdered (runRule defaultContext sc prog) = true := by
  intro sc prog
  have hc : ∀ a b, (create defaultContext).isValidOrder a b = false → jsLe b a = true :=
    fun a b hab => jsLe_flip a b hab
  exact visitNode_preserves (create defaultContext) sc
    (fun st => violationsOrdered st = true)
    (fun pt d st h => propertyStep_VOrd _ hc sc pt d st h)
    (fun pt st h => by
      show violationsOrdered (spreadStep pt st) = true
      unfold violationsOrdered
      rw [spreadStep_violations]
      exact h)
    (fun st h => h)
    (fun st h => by
      show violationsOrdered (popFrame st) = true
      unfold violationsOrdered
      rw [popFrame_violations]
      exact h)
    prog initialSt rfl

/-- Claim C2: under the default configuration, at a property whose parent
is an object literal and whose frame carries a resolvable previous name,
a violation is reported for the pair (previous name, this name) precisely
when the active comparator rejects it; when this entry's name or the
previous name is unresolvable, nothing is reported. -/
theorem C2_violation_iff_comparator :
    ∀ (sc : SourceCode) (upper : Stack) (pn : String)
      (prevNode : Option PropertyData) (pb : Bool) (d : PropertyData)
      (viols : List Violation) (tr : List Stack),
      (∀ tn, getPropertyName d = some tn →
        (propertyStep defaultConfig sc "ObjectExpression" d
            ⟨Stack.frame upper (some pn) prevNode pb, viols, tr⟩).violations =
          (if jsLe pn tn then viols
           else viols ++ [mkViolation defaultConfig sc d prevNode pn tn])) ∧
      (getPropertyName d = none →
        (propertyStep defaultConfig sc "ObjectExpression" d
            ⟨Stack.frame upper (some pn) prevNode pb, viols, tr⟩).violations = viols) ∧
      (propertyStep defaultConfig sc "ObjectExpression" d
          ⟨Stack.frame upper none prevNode pb, viols, tr⟩).violations = viols := by
  intro sc upper pn prevNode pb d viols tr
  refine ⟨fun tn htn => ?_, fun htn => ?_, ?_⟩
  · unfold propertyStep
    cases hj : jsLe pn tn <;>
      simp [htn, defaultConfig_allowLSG, defaultConfig_isValidOrder, isValidOrders.asc, hj]
  · unfold propertyStep
    simp [htn]
  · unfold propertyStep
    simp

/-- Claim C2 witness: the general characterization instantiated at the
`a` property of `{b: 1, a: 2}` with previous name `b`. -/
theorem C2_violation_iff_comparator_witness :
    getPropertyName (identProp 7 11 7 8 "a") = some "a" ∧
    (propertyStep defaultConfig sc1 "ObjectExpression" (identProp 7 11 7 8 "a")
        ⟨Stack.frame .nil (some "b") (some (identProp 1 5 1 2 "b")) false, [], []⟩).violations =
      (if jsLe "b" "a" then []
       else [mkViolation defaultConfig sc1 (identProp 7 11 7 8 "a")
          (some (identProp 1 5 1 2 "b")) "b" "a"]) :=
  ⟨rfl,
    (C2_violation_iff_comparator sc1 .nil "b" (some (identProp 1 5 1 2 "b")) false
        (identProp 7 11 7 8 "a") [] []).1 "a" rfl⟩

/-- Claim C4: with `allowLineSeparatedGroups` enabled, the ordering check
for a consecutive named pair is skipped exactly when a qualifying blank
line is detected before the current entry (some adjacent pair of the
tokens/comments between the two entries, or the boundary between the
previous entry and the first such token, or between the last such token
and the current entry, spans more than one line break): if one is
detected nothing is reported, and otherwise the rule applies normally;
hence `{ b: 1, a: 2 }` with no blank line reports one violation between
`b` and `a`, and the same entries separated by a blank line report
none. -/
theorem C4_line_separated_groups :
    (∀ (sc : SourceCode) (upper : Stack) (pn : String) (pnode d : PropertyData)
      (viols : List Violation) (tr : List Stack) (tn : String),
      getPropertyName d = some tn →
      ((QualifyingBlank pnode.span d.span (getTokensBetween sc pnode.span d.span) →
        (propertyStep groupsConfig sc "ObjectExpression" d
            ⟨Stack.frame upper (some pn) (some pnode) false, viols, tr⟩).violations =
          viols) ∧
       (¬ QualifyingBlank pnode.span d.span (getTokensBetween sc pnode.span d.span) →
        (propertyStep groupsConfig sc "ObjectExpression" d
            ⟨Stack.frame upper (some pn) (some pnode) false, viols, tr⟩).violations =
          (if jsLe pn tn then viols
           else viols ++ [mkViolation groupsConfig sc d (some pnode) pn tn])))) ∧
    ((runRule ctxGroups scG1 progG1).violations.map fun v => (v.prevName, v.thisName))
        = [("b", "a")] ∧
    (runRule ctxGroups scG2 progG2).violations = [] := by
  refine ⟨?_, by decide, by decide⟩
  intro sc upper pn pnode d viols tr tn htn
  have hb := blankAfterTokens_false_iff pnode.span d.span
    (getTokensBetween sc pnode.span d.span)
  constructor
  · intro hq
    have hbt : blankAfterTokens false pnode.span d.span
        (getTokensBetween sc pnode.span d.span) = true := hb.mpr hq
    unfold propertyStep
    simp [htn, groupsConfig_allowLSG, computeIsBlank, hbt]
  · intro hnq
    have hbt : blankAfterTokens false pnode.span d.span
        (getTokensBetween sc pnode.span d.span) = false :=
      Bool.eq_false_iff.mpr fun h => hnq (hb.mp h)
    unfold propertyStep
    cases hj : jsLe pn tn <;>
      simp [htn, groupsConfig_allowLSG, computeIsBlank, hbt,
        groupsConfig_isValidOrder, isValidOrders.asc, hj]

/-- Claim C4 witness: the general characterization instantiated at the
pair `(b, a)` of `{ b: 1, a: 2 }`, where no qualifying blank line exists
and the violation is reported. -/
theorem C4_line_separated_groups_witness :
    getPropertyName (identProp 8 12 8 9 "a") = some "a" ∧
    ¬ QualifyingBlank (identProp 2 6 2 3 "b").span (identProp 8 12 8 9 "a").span
      (getTokensBetween scG1 (identProp 2 6 2 3 "b").span (identProp 8 12 8 9 "a").span) ∧
    (propertyStep groupsConfig scG1 "ObjectExpression" (identProp 8 12 8 9 "a")
        ⟨Stack.frame .nil (some "b") (some (identProp 2 6 2 3 "b")) false, [], []⟩).violations =
      (if jsLe "b" "a" then []
       else [mkViolation groupsConfig scG1 (identProp 8 12 8 9 "a")
          (some (identProp 2 6 2 3 "b")) "b" "a"]) :=
  ⟨rfl, by decide,
    (C4_line_separated_groups.1 scG1 .nil "b" (identProp 2 6 2 3 "b")
        (identProp 8 12 8 9 "a") [] [] "a" rfl).2 (by decide)⟩

/-- Claim C9: a property whose parent is a destructuring pattern is
skipped entirely — the handler leaves the state untouched for every
configuration, source and property — and `const {b, a} = obj;` yields
zero violations for every configuration. -/
theorem C9_object_pattern_skipped :
    (∀ (cfg : Config) (sc : SourceCode) (d : PropertyData) (st : St),
      propertyStep cfg sc "ObjectPattern" d st = st) ∧
    (∀ ctx : Context, (runRule ctx sc5 prog5).violations = []) := by
  constructor
  · intro cfg sc d st
    simp [propertyStep]
  · intro ctx
    simp [runRule, visitNode, visitMembers, visitMember, propertyStep, initialSt, prog5]

/-- Claim C5 counterexample: in `{...x, b: 1, a: 2}` the spread precedes
both named entries; the pair (b, a) is compared normally and the run
reports exactly one violation, with previous name `b` and current name
`a` — not zero violations as claimed. -/
theorem C5_counterexample :
    ((runRule defaultContext sc4 prog4).violations.map
      fun v => (v.prevName, v.thisName)) = [("b", "a")] := by
  decide

/-- Claim C5 (amended): visiting a spread member whose parent is an
object literal resets the frame's previous name to unset and changes
nothing else — the previous node, the blank-line flag, the enclosing
frames and the reported violations are untouched, and no frame is pushed
or popped; consequently a spread *between* two named entries clears the
ordering obligation: `{b: 1, ...x, a: 2}` reports no violation. -/
theorem C5_spread_resets_prevName :
    (∀ upper pn pnode pb viols tr,
      spreadStep "ObjectExpression" ⟨Stack.frame upper pn pnode pb, viols, tr⟩ =
        ⟨Stack.frame upper none pnode pb, viols,
          tr ++ [Stack.frame upper none pnode pb]⟩) ∧
    (runRule defaultContext sc4b prog4b).violations = [] := by
  refine ⟨fun upper pn pnode pb viols tr => ?_, by decide⟩
  rfl

/-- Claim C3 counterexample: on `{c: 1, a: 2, b: 3}` one pass under the
default configuration reports exactly one violation (between `c` and
`a`); applying every proposed edit yields `{a: 2, c: 1, b: 3}`, whose
literal has consecutively named entries `a`, `c`, `b` — the pair
`(c, b)` fails `nameOf(prev) <= nameOf(curr)`, and re-running the rule on
the corrected text still reports that pair. -/
theorem C3_counterexample :
    ((runRule defaultContext sc3 prog3).violations.map
      fun v => (v.prevName, v.thisName)) = [("c", "a")] ∧
    applyFixes src3
      (((runRule defaultContext sc3 prog3).violations.map fun v => v.fixes).flatten)
      = src3b ∧
    nodeMemberNames prog3b = [some "a", some "c", some "b"] ∧
    jsLe "c" "b" = false ∧
    ((runRule defaultContext sc3b prog3b).violations.map
      fun v => (v.prevName, v.thisName)) = [("c", "b")] := by
  decide

/-- Claim C3 witness: the local-swap property instantiated on the run
over `{c: 1, a: 2, b: 3}`. -/
theorem C3_local_swap_correctness_witness :
    violationsOrdered (runRule defaultContext sc3 prog3) = true :=
  C3_local_swap_correctness sc3 prog3

/-- Claim C5 witness: the frame effect instantiated at a concrete frame,
together with the concrete spread-between-entries run. -/
theorem C5_spread_resets_prevName_witness :
    spreadStep "ObjectExpression"
        ⟨Stack.frame .nil (some "b") none false, [], []⟩ =
      ⟨Stack.frame .nil none none false, [],
        [Stack.frame .nil none none false]⟩ ∧
    (runRule defaultContext sc4b prog4b).violations = [] :=
  ⟨C5_spread_resets_prevName.1 .nil (some "b") none false [] [],
    C5_spread_resets_prevName.2⟩

/-- Claim C7 witness: the lower-casing characterization instantiated at
`("a", "B")`. -/
theorem C7_case_sensitivity_witness :
    isValidOrders.ascI "a" "B" = jsLe (toLowerCase "a") (toLowerCase "B") :=
  C7_case_sensitivity.1 "a" "B"

/-- Claim C8 witness: the flip property instantiated at `("b", "a")`. -/
theorem C8_desc_is_flipped_asc_witness :
    isValidOrders.desc "b" "a" = isValidOrders.asc "a" "b" ∧
    isValidOrders.descI "b" "a" = isValidOrders.ascI "a" "b" ∧
    isValidOrders.descN "b" "a" = isValidOrders.ascN "a" "b" ∧
    isValidOrders.descIN "b" "a" = isValidOrders.ascIN "a" "b" :=
  C8_desc_is_flipped_asc "b" "a"

/-- Claim C9 witness: the pattern-skip property instantiated at the `b`
property of `const {b, a} = obj;` and the concrete run. -/
theorem C9_object_pattern_skipped_witness :
    propertyStep defaultConfig sc5 "ObjectPattern" (identProp 7 8 7 8 "b") initialSt
        = initialSt ∧
    (runRule defaultContext sc5 prog5).violations = [] :=
  ⟨C9_object_pattern_skipped.1 defaultConfig sc5 (identProp 7 8 7 8 "b") initialSt,
    C9_object_pattern_skipped.2 defaultContext⟩

/-- Claim C10 witness: the never-true blank-line flag instantiated on the
run over `{b: 1, a: 2}`. -/
theorem C10_prevBlankLine_never_true_witness :
    stackNoBlank (runRule defaultContext sc1 prog1).stack = true ∧
    (runRule defaultContext sc1 prog1).trace.all stackNoBlank = true :=
  C10_prevBlankLine_never_true defaultContext sc1 prog1

end SortKeysFix
